import Mathlib

/-!
Shallow embedding of `src/dcm2niix_pyw/__init__.py`, a CLI wrapper that maps
user-friendly options to the flag grammar of the external `dcm2niix` binary,
spawns it, re-emits its stdout through a logger, and optionally relocates a
single output file from a temporary directory to a user-requested path.

External nondeterminism (the `tempfile.mkdtemp` result, the subprocess result,
the temp-directory listing after the run) is supplied through an `Env` record.
Filesystem and process side effects are recorded as an ordered `Effect` trace;
log calls are recorded as an ordered `LogEvent` trace; a raised Python
exception is an `Outcome.error`.
-/

namespace Dcm2niixPyw

/-! ### Python string primitives used by the source -/

/-- Model of Python `str.strip(chars)`: remove characters belonging to the set
`cs` from both ends of the string. -/
def stripChars (s : String) (cs : List Char) : String :=
  ⟨((s.data.dropWhile cs.contains).reverse.dropWhile cs.contains).reverse⟩

/-- Worker for Python `str.split()` (no separator argument): cut at every
whitespace character, keeping possibly-empty pieces; `acc` holds the chars of
the current piece in reverse. -/
def splitCharsAux (p : Char → Bool) : List Char → List Char → List (List Char)
  | [], acc => [acc.reverse]
  | c :: cs, acc =>
      if p c then acc.reverse :: splitCharsAux p cs []
      else splitCharsAux p cs (c :: acc)

/-- Model of Python `str.split()`: split on whitespace runs, discarding empty
pieces. -/
def pySplit (s : String) : List String :=
  ((splitCharsAux Char.isWhitespace s.data []).filter (· ≠ [])).map (⟨·⟩)

/-- Model of Python `sep.join(strings)`. -/
def pyJoin (sep : String) : List String → String
  | [] => ""
  | [a] => a
  | a :: b :: rest => a ++ sep ++ pyJoin sep (b :: rest)

/-- Model of Python `str.splitlines()` for newline-separated text. -/
def splitlines (s : String) : List String :=
  if s.isEmpty then []
  else
    let parts := s.splitOn "\n"
    if s.endsWith "\n" then parts.dropLast else parts

/-- Model of Python `s.startswith(pre)`. -/
def startsWithPy (s pre : String) : Bool :=
  pre.data.isPrefixOf s.data

/-- Index of the last occurrence of `c` in `l`, if any (Python `str.rfind`). -/
def rfindIdx (c : Char) (l : List Char) : Option Nat :=
  match (l.reverse.findIdx? (· = c)) with
  | none => none
  | some j => some (l.length - 1 - j)

/-- Model of `pathlib`: last path component. -/
def pathName (p : String) : String :=
  match rfindIdx '/' p.data with
  | none => p
  | some i => ⟨p.data.drop (i + 1)⟩

/-- Model of `pathlib.Path.suffix`: the extension of the final component,
empty for names with no interior dot. -/
def pathSuffix (p : String) : String :=
  let name := (pathName p).data
  match rfindIdx '.' name with
  | none => ""
  | some i => if 0 < i ∧ i < name.length - 1 then ⟨name.drop i⟩ else ""

/-- Model of `pathlib.Path.parent`. -/
def parentOf (p : String) : String :=
  match rfindIdx '/' p.data with
  | none => "."
  | some i => if i = 0 then "/" else ⟨p.data.take i⟩

/-! ### Data model from the source -/

/-- `class Format(str, enum.Enum)` from the source. -/
inductive Format
  | nrrd
  | mgh
  | json_nifti
  | bjnifti
  | nifti
  deriving DecidableEq, Repr

/-- The `format_to_string` table from the source. -/
def format_to_string : Format → String
  | .nrrd => "y"
  | .mgh => "m"
  | .json_nifti => "j"
  | .bjnifti => "b"
  | .nifti => "n"

/-- `class WriteBehavior(enum.Enum)` from the source. -/
inductive WriteBehavior
  | skip
  | overwrite
  | add_suffix
  deriving DecidableEq, Repr

/-- The `write_behavior_to_int` table from the source. -/
def write_behavior_to_int : WriteBehavior → Nat
  | .skip => 0
  | .overwrite => 1
  | .add_suffix => 2

/-- `_bool_to_yn` from the source. -/
def bool_to_yn (value : Bool) : String :=
  if value then "y" else "n"

def maxCommentLength : Nat := 24

def maxVerboseLevel : Nat := 2

/-- Loguru severities used by the source. -/
inductive Severity
  | debug
  | info
  | success
  | warning
  | error
  deriving DecidableEq, Repr

/-- One logger call: severity and message. -/
structure LogEvent where
  sev : Severity
  msg : String
  deriving DecidableEq, Repr

/-- Python exceptions the source can raise: the `ValueError` for an oversized
comment, and the `IndexError` from `out_paths[0]` on an empty list. -/
inductive Err
  | validationError (msg : String)
  | indexError
  deriving DecidableEq, Repr

/-- Observable side effects, in program order. -/
inductive Effect
  | mkdirParents (p : String)
  | mkdtemp (p : String)
  | spawn (argv : List String)
  | move (src dst : String)
  | rmtree (p : String)
  deriving DecidableEq, Repr

def Effect.isMove : Effect → Bool
  | .move _ _ => true
  | _ => false

def Effect.isRmtree : Effect → Bool
  | .rmtree _ => true
  | _ => false

def Effect.isSpawn : Effect → Bool
  | .spawn _ => true
  | _ => false

/-- `subprocess.CompletedProcess` fields the source reads. -/
structure CompletedProcess where
  returncode : Int
  stdout : String
  stderr : String
  deriving DecidableEq, Repr

/-- External world: the binary's path, what `tempfile.mkdtemp` returns, the
subprocess result, and what `Path.iterdir` lists in the temp folder after the
run. -/
structure Env where
  binPath : String
  tmpdir : String
  proc : CompletedProcess
  tmpEntries : List String
  deriving Repr

/-- Keyword arguments of the `dcm2niix` Python function, plus the positional
`in_folder` and the `*args` extras. Defaults follow the source. -/
structure Options where
  inFolder : String
  args : List String := []
  compress : Bool := true
  compressionLevel : Nat := 6
  adjacent : Bool := false
  comment : Option String := none
  depth : Nat := 5
  exportFormat : Format := .nifti
  filenameFormat : String := "%f_%p_%t_%s"
  ignore : Bool := false
  outFolder : Option String := none
  verbosity : Nat := 0
  outPath : Option String := none
  writeBehavior : WriteBehavior := .overwrite
  deriving Repr

/-- Trace of a run: effects and log events, each in program order. -/
structure RunState where
  effects : List Effect
  logs : List LogEvent
  deriving Repr

/-- Whether the call returned normally or raised. -/
inductive Outcome
  | ok
  | error (e : Err)
  deriving DecidableEq, Repr

/-! ### The option mapper (lines 277-308 of the source) -/

/-- Lines 280: `depth = 0` when an explicit output file is requested. -/
def effectiveDepth (o : Options) : Nat :=
  if o.outPath.isSome then 0 else o.depth

/-- Lines 281: `out_folder = Path(tempfile.mkdtemp())` when an explicit output
file is requested, else the caller's folder. -/
def effectiveOutFolder (tmpdir : String) (o : Options) : Option String :=
  if o.outPath.isSome then some tmpdir else o.outFolder

/-- The eight always-present command lines (lines 282-291). -/
def baseLines (o : Options) : List String :=
  [ "  -a " ++ bool_to_yn o.adjacent ++ " \\",
    "  -d " ++ toString (effectiveDepth o) ++ " \\",
    "  -e " ++ format_to_string o.exportFormat ++ " \\",
    "  -f " ++ o.filenameFormat ++ " \\",
    "  -i " ++ bool_to_yn o.ignore ++ " \\",
    "  -v " ++ toString (min o.verbosity maxVerboseLevel) ++ " \\",
    "  -z " ++ bool_to_yn o.compress ++ " \\",
    "  -w " ++ toString (write_behavior_to_int o.writeBehavior) ++ " \\" ]

/-- Line 292-293: the compression-level line, present only when compressing. -/
def compressLines (o : Options) : List String :=
  if o.compress then ["  -" ++ toString o.compressionLevel ++ " \\"] else []

/-- Lines 294-302: comment validation and the `-c` line. -/
def commentLines (o : Options) : Except Err (List String) :=
  match o.comment with
  | none => .ok []
  | some c =>
      if c.length > maxCommentLength then
        .error (.validationError
          ("Comment length (" ++ toString c.length ++ ") exceeds maximum of "
            ++ toString maxCommentLength ++ " characters"))
      else .ok ["  -c \"" ++ c ++ "\" \\"]

/-- Lines 303-305: the `-o` line when an output folder is in effect. -/
def outFolderLines (tmpdir : String) (o : Options) : List String :=
  match effectiveOutFolder tmpdir o with
  | none => []
  | some f => ["  -o " ++ f ++ " \\"]

/-- Lines 307-308: extra pass-through arguments joined into one line. -/
def extraArgsLines (o : Options) : List String :=
  if o.args.isEmpty then [] else ["  " ++ pyJoin " \\\n  " o.args]

/-- Lines 277-308: the full ordered command-line list, or the comment
`ValueError`. -/
def buildCommandLines (tmpdir : String) (o : Options) : Except Err (List String) :=
  match commentLines o with
  | .error e => .error e
  | .ok cls =>
      .ok (baseLines o ++ compressLines o ++ cls
            ++ outFolderLines tmpdir o
            ++ ["  " ++ o.inFolder ++ " \\"]
            ++ extraArgsLines o)

/-! ### The runner `_call_dcm2niix` (lines 336-358) -/

/-- The character set of Python `line.strip("  \\")`. -/
def spaceSlash : List Char := [' ', '\\']

/-- Line 342: `line.strip("  \\").split()`. -/
def lineToArgs (line : String) : List String :=
  pySplit (stripChars line spaceSlash)

/-- The character set of Python `line.strip("Warning: ")`. -/
def warningChars : List Char := ['W', 'a', 'r', 'n', 'i', 'n', 'g', ':', ' ']

/-- Lines 348-358: per-line classification of captured stdout. -/
def classifyLine (line : String) : LogEvent :=
  if startsWithPy line "Warning: " then
    { sev := .warning, msg := stripChars line warningChars }
  else if startsWithPy line "Conversion required" then
    { sev := .success, msg := line }
  else if startsWithPy line "Chris Rorden" then
    { sev := .debug, msg := line }
  else
    { sev := .info, msg := line }

/-- `_call_dcm2niix` (lines 336-358): log the command, spawn the binary with
the whitespace-split tokens, log errors on a nonzero exit code, then re-emit
each stdout line. -/
def call_dcm2niix (binPath : String) (lines : List String)
    (proc : CompletedProcess) : List Effect × List LogEvent :=
  let linesStr := stripChars (pyJoin "\n" lines) spaceSlash
  let dbg : List LogEvent :=
    [ { sev := .debug, msg := "The following command will be run:" },
      { sev := .debug, msg := "\n" ++ binPath ++ " \\\n  " ++ linesStr } ]
  let argTokens := (lines.map lineToArgs).flatten
  let errLogs : List LogEvent :=
    if proc.returncode ≠ 0 then
      [ { sev := .error,
          msg := "dcm2niix failed with error code " ++ toString proc.returncode },
        { sev := .error, msg := proc.stderr } ]
    else []
  let outLogs := (splitlines proc.stdout).map classifyLine
  ([.spawn (binPath :: argTokens)], dbg ++ errLogs ++ outLogs)

/-! ### The output relocator (lines 312-328) -/

/-- The warning message of lines 317-320. -/
def moreThanOneMsg (outFolder : String) : String :=
  "More than one output file found. Output file not written. The temporary directory \""
    ++ outFolder ++ "\" will not be deleted"

/-- Lines 312-328: move the single non-JSON entry to `outPath` and delete the
temp folder; warn and keep it when several remain; `IndexError` when none. -/
def relocate (tmpEntries : List String) (outPath outFolder : String) :
    List Effect × List LogEvent × Outcome :=
  let outPaths := tmpEntries.filter (fun p => pathSuffix p != ".json")
  if outPaths.length > 1 then
    ([], [{ sev := .warning, msg := moreThanOneMsg outFolder }], .ok)
  else
    match outPaths with
    | [] => ([], [], .error .indexError)
    | x :: _ => ([.move x outPath, .rmtree outFolder], [], .ok)

/-! ### The `dcm2niix` Python function (lines 258-328) -/

/-- The whole `dcm2niix` function: help short-circuit, pre-spawn filesystem
effects, option mapping, the spawn, and the relocation step. -/
def dcm2niix (env : Env) (o : Options) : RunState × Outcome :=
  if o.args.contains "-h" then
    ({ effects := (call_dcm2niix env.binPath ["-h"] env.proc).1,
       logs := (call_dcm2niix env.binPath ["-h"] env.proc).2 }, .ok)
  else
    let preEffects : List Effect :=
      match o.outPath with
      | some p => [.mkdirParents (parentOf p), .mkdtemp env.tmpdir]
      | none => []
    match buildCommandLines env.tmpdir o with
    | .error e => ({ effects := preEffects, logs := [] }, .error e)
    | .ok ls =>
      let folderEffects : List Effect :=
        match effectiveOutFolder env.tmpdir o with
        | some f => [.mkdirParents f]
        | none => []
      let callEffects := (call_dcm2niix env.binPath ls env.proc).1
      let callLogs := (call_dcm2niix env.binPath ls env.proc).2
      match o.outPath with
      | none =>
          ({ effects := preEffects ++ folderEffects ++ callEffects,
             logs := callLogs }, .ok)
      | some p =>
          let rel := relocate env.tmpEntries p env.tmpdir
          ({ effects := preEffects ++ folderEffects ++ callEffects ++ rel.1,
             logs := callLogs ++ rel.2.1 }, rel.2.2)

/-- The success-severity events of a log trace. -/
def successEvents (logs : List LogEvent) : List LogEvent :=
  logs.filter (fun e => e.sev == Severity.success)

/-! ### Concrete instances used to exercise the theorems -/

/-- A benign environment: successful run, empty stdout, no temp entries. -/
def sampleEnv : Env := ⟨"dcm2niix", "/tmp/dcm", ⟨0, "", ""⟩, []⟩

/-- An environment whose temp directory holds one image and one sidecar. -/
def envOneCandidate : Env :=
  ⟨"dcm2niix", "/tmp/dcm", ⟨0, "", ""⟩, ["/tmp/dcm/a.nii.gz", "/tmp/dcm/a.json"]⟩

/-- An environment whose temp directory holds two non-JSON images. -/
def envTwoCandidates : Env :=
  ⟨"dcm2niix", "/tmp/dcm", ⟨0, "", ""⟩, ["/tmp/dcm/a.nii.gz", "/tmp/dcm/b.nii.gz"]⟩

/-- An environment whose temp directory holds only a JSON sidecar. -/
def envNoCandidate : Env :=
  ⟨"dcm2niix", "/tmp/dcm", ⟨0, "", ""⟩, ["/tmp/dcm/a.json"]⟩

/-- Options with a short comment. -/
def optShortComment : Options := { inFolder := "/data", comment := some "VIP" }

/-- Options with an explicit output path, a caller depth and a caller folder. -/
def optOutPath : Options :=
  { inFolder := "/data", depth := 7, outFolder := some "/caller",
    outPath := some "/out/res.nii.gz" }

/-- Options with an explicit output path and an oversized comment. -/
def optOutPathLongComment : Options :=
  { inFolder := "/data", outPath := some "/out/res.nii.gz",
    comment := some "this comment is far too long xx" }

/-- Options with an explicit output path and no comment. -/
def optOutPathPlain : Options :=
  { inFolder := "/data", outPath := some "/out/res.nii.gz" }

/-- Options carrying two clean extra pass-through arguments. -/
def optExtras : Options := { inFolder := "/data", args := ["--big-endian", "--foo"] }

/-- Options with every keyword left at its default. -/
def optPlain : Options := { inFolder := "/data" }

/-- Options whose single extra argument contains a space. -/
def optArgSpace : Options := { inFolder := "/data", args := ["a b"] }

/-- An environment whose subprocess prints no success line. -/
def envQuiet : Env := ⟨"dcm2niix", "/tmp/dcm", ⟨0, "hello\n", ""⟩, []⟩

/-- The characters of the separator `" \\\n  "` used to join extra
arguments into one command line. -/
def sepChars : List Char := [' ', '\\', '\n', ' ', ' ']

/-- Character-level view of `pyJoin " \\\n  "`. -/
def joinData : List (List Char) → List Char
  | [] => []
  | [a] => a
  | a :: b :: rest => a ++ sepChars ++ joinData (b :: rest)

/-- A string is a clean token when it is nonempty and has neither whitespace
nor backslash characters; such extra arguments survive the line round trip. -/
def cleanToken (a : String) : Prop :=
  a.data ≠ [] ∧ ∀ c ∈ a.data, c.isWhitespace = false ∧ c ≠ '\\'

instance (a : String) : Decidable (cleanToken a) := by
  unfold cleanToken
  infer_instance

/-! ### Helper lemmas about the string primitives -/

theorem dropWhile_of_head (p : Char → Bool) (l : List Char)
    (h : ∀ c, l.head? = some c → p c = false) : l.dropWhile p = l := by
  cases l with
  | nil => rfl
  | cons c cs => rw [List.dropWhile_cons, h c rfl]; simp

theorem stripChars_no_strip (s : String) (cs : List Char)
    (h1 : ∀ c, s.data.head? = some c → cs.contains c = false)
    (h2 : ∀ c, s.data.getLast? = some c → cs.contains c = false) :
    stripChars s cs = s := by
  unfold stripChars
  rw [dropWhile_of_head _ _ h1]
  rw [dropWhile_of_head _ _ (by simpa [List.head?_reverse] using h2)]
  rw [List.reverse_reverse]

theorem splitCharsAux_nonp (p : Char → Bool) (t : List Char)
    (h : ∀ c ∈ t, p c = false) :
    ∀ l acc, splitCharsAux p (t ++ l) acc = splitCharsAux p l (t.reverse ++ acc) := by
  induction t with
  | nil => intro l acc; simp
  | cons c cs ih =>
      intro l acc
      have hc : p c = false := h c (by simp)
      have ih' := ih (fun c hc => h c (by simp [hc])) l (c :: acc)
      simp only [List.cons_append, splitCharsAux, hc, Bool.false_eq_true, if_false]
      rw [show cs.append l = cs ++ l from rfl, ih']
      simp

theorem splitCharsAux_all_nonp (p : Char → Bool) (t : List Char)
    (h : ∀ c ∈ t, p c = false) : splitCharsAux p t [] = [t] := by
  have := splitCharsAux_nonp p t h [] []
  simpa [splitCharsAux] using this

theorem pyJoin_data (sep : String) (args : List String) (hsep : sep = " \\\n  ") :
    (pyJoin sep args).data = joinData (args.map String.data) := by
  induction args with
  | nil => rfl
  | cons a tl ih =>
      cases tl with
      | nil => rfl
      | cons b rest =>
          show ((a ++ sep) ++ pyJoin sep (b :: rest)).data = _
          have hd : ∀ s t : String, (s ++ t).data = s.data ++ t.data := fun _ _ => rfl
          rw [hd, hd, ih]
          subst hsep
          rfl

theorem joinData_ne_nil (args : List (List Char)) (h : ∀ a ∈ args, a ≠ [])
    (hne : args ≠ []) : joinData args ≠ [] := by
  match args with
  | [] => exact absurd rfl hne
  | [a] => exact h a (by simp)
  | a :: b :: rest =>
      show (a ++ sepChars) ++ joinData (b :: rest) ≠ []
      have ha := h a (by simp)
      simp [ha]

theorem joinData_head?_mem (args : List (List Char)) (h : ∀ a ∈ args, a ≠ []) :
    ∀ c, (joinData args).head? = some c → ∃ a ∈ args, c ∈ a := by
  match args with
  | [] => intro c hc; simp [joinData] at hc
  | [a] =>
      intro c hc
      exact ⟨a, by simp, List.mem_of_mem_head? (by simp [joinData] at hc ⊢; exact hc)⟩
  | a :: b :: rest =>
      intro c hc
      have ha := h a (by simp)
      obtain ⟨x, xs, hx⟩ : ∃ x xs, a = x :: xs := by
        cases a with
        | nil => exact absurd rfl ha
        | cons x xs => exact ⟨x, xs, rfl⟩
      subst hx
      have : (joinData ((x :: xs) :: b :: rest)).head? = some x := by
        show (((x :: xs) ++ sepChars) ++ joinData (b :: rest)).head? = some x
        simp
      rw [this] at hc
      exact ⟨x :: xs, by simp, by simp [← Option.some_inj.mp hc]⟩

theorem joinData_getLast?_mem (args : List (List Char)) (h : ∀ a ∈ args, a ≠ []) :
    ∀ c, (joinData args).getLast? = some c → ∃ a ∈ args, c ∈ a := by
  match args with
  | [] => intro c hc; simp [joinData] at hc
  | [a] =>
      intro c hc
      simp only [joinData] at hc
      exact ⟨a, by simp, List.mem_of_mem_getLast? (by simp [hc])⟩
  | a :: b :: rest =>
      intro c hc
      have hJ : joinData (b :: rest) ≠ [] :=
        joinData_ne_nil _ (fun x hx => h x (by simp [hx])) (by simp)
      have hc' : (joinData (b :: rest)).getLast? = some c := by
        have : (joinData (a :: b :: rest)).getLast? = (joinData (b :: rest)).getLast? := by
          show (((a ++ sepChars) ++ joinData (b :: rest))).getLast? = _
          rw [List.getLast?_append]
          cases hL : (joinData (b :: rest)).getLast? with
          | none => exact absurd (by simpa using hL) hJ
          | some d => simp
        rw [this] at hc
        exact hc
      obtain ⟨x, hx, hcx⟩ := joinData_getLast?_mem (b :: rest)
        (fun y hy => h y (by simp [hy])) c hc'
      exact ⟨x, by simp [hx], hcx⟩

theorem map_intersperse {α β : Type} (f : α → β) (a : α) (l : List α) :
    (List.intersperse a l).map f = List.intersperse (f a) (l.map f) := by
  match l with
  | [] => rfl
  | [b] => rfl
  | b :: c :: tl =>
      rw [List.intersperse_cons_cons, List.map_cons, List.map_cons,
        map_intersperse f a (c :: tl)]
      rfl

theorem isWhitespace_space : Char.isWhitespace ' ' = true := rfl

theorem isWhitespace_newline : Char.isWhitespace '\n' = true := rfl

theorem isWhitespace_backslash : Char.isWhitespace '\\' = false := rfl

theorem split_joinData (args : List (List Char))
    (h : ∀ a ∈ args, a ≠ [] ∧ ∀ c ∈ a, c.isWhitespace = false) :
    (splitCharsAux Char.isWhitespace (joinData args) []).filter (· ≠ []) =
      List.intersperse ['\\'] args := by
  match args with
  | [] => rfl
  | [a] =>
      obtain ⟨ha, hc⟩ := h a (by simp)
      rw [show joinData [a] = a from rfl, splitCharsAux_all_nonp _ _ hc]
      simp [List.filter_cons, ha, List.intersperse_singleton]
  | a :: b :: rest =>
      obtain ⟨ha, hca⟩ := h a (by simp)
      have step : splitCharsAux Char.isWhitespace (joinData (a :: b :: rest)) [] =
          a :: ['\\'] :: [] :: [] :: splitCharsAux Char.isWhitespace (joinData (b :: rest)) [] := by
        show splitCharsAux Char.isWhitespace ((a ++ sepChars) ++ joinData (b :: rest)) [] = _
        rw [List.append_assoc, splitCharsAux_nonp _ _ hca]
        show splitCharsAux Char.isWhitespace
          (' ' :: '\\' :: '\n' :: ' ' :: ' ' :: joinData (b :: rest)) (a.reverse ++ []) = _
        rw [splitCharsAux, if_pos isWhitespace_space]
        rw [splitCharsAux, if_neg (by rw [isWhitespace_backslash]; exact Bool.false_ne_true)]
        rw [splitCharsAux, if_pos isWhitespace_newline]
        rw [splitCharsAux, if_pos isWhitespace_space]
        rw [splitCharsAux, if_pos isWhitespace_space]
        simp
      rw [step]
      have ih := split_joinData (b :: rest) (fun x hx => h x (by simp [hx]))
      simp only [List.filter_cons, List.intersperse_cons_cons]
      rw [ih]
      simp [ha]

theorem data_append (s t : String) : (s ++ t).data = s.data ++ t.data := rfl

theorem spaceSlash_contains_false (c : Char) (h1 : c.isWhitespace = false)
    (h2 : c ≠ '\\') : spaceSlash.contains c = false := by
  have hsp : c ≠ ' ' := by
    intro h
    rw [h, isWhitespace_space] at h1
    exact Bool.noConfusion h1
  simp [spaceSlash, hsp, h2]

theorem pySplit_single (a : String) (ha : a.data ≠ [])
    (hc : ∀ c ∈ a.data, c.isWhitespace = false) : pySplit a = [a] := by
  unfold pySplit
  rw [splitCharsAux_all_nonp _ _ hc]
  simp [List.filter_cons, ha]

theorem stripChars_wrap (a : String) (h : cleanToken a) :
    stripChars ("  " ++ a ++ " \\") spaceSlash = a := by
  obtain ⟨ha, hc⟩ := h
  obtain ⟨x, xs, hx⟩ : ∃ x xs, a.data = x :: xs := by
    cases hxx : a.data with
    | nil => exact absurd hxx ha
    | cons x xs => exact ⟨x, xs, rfl⟩
  have hdata : ("  " ++ a ++ " \\").data = ' ' :: ' ' :: (a.data ++ [' ', '\\']) := by
    rw [data_append, data_append]
    rfl
  unfold stripChars
  rw [hdata]
  rw [List.dropWhile_cons, if_pos (by rfl)]
  rw [List.dropWhile_cons, if_pos (by rfl)]
  have hx' := hc x (by rw [hx]; simp)
  have hxc : spaceSlash.contains x = false :=
    spaceSlash_contains_false x hx'.1 hx'.2
  rw [hx, List.cons_append, List.dropWhile_cons,
    if_neg (by rw [hxc]; exact Bool.noConfusion)]
  have hrev : (x :: (xs ++ [' ', '\\'])).reverse = '\\' :: ' ' :: (x :: xs).reverse := by
    simp
  rw [hrev]
  rw [List.dropWhile_cons, if_pos (by rfl)]
  rw [List.dropWhile_cons, if_pos (by rfl)]
  have hlast : ∀ c, (x :: xs).reverse.head? = some c → spaceSlash.contains c = false := by
    intro c hcc
    rw [List.head?_reverse] at hcc
    have hmem : c ∈ x :: xs := List.mem_of_mem_getLast? (by simp [hcc])
    have := hc c (by rw [hx]; exact hmem)
    exact spaceSlash_contains_false c this.1 this.2
  rw [dropWhile_of_head _ _ hlast, List.reverse_reverse, ← hx]

theorem lineToArgs_clean (a : String) (h : cleanToken a) :
    lineToArgs ("  " ++ a ++ " \\") = [a] := by
  unfold lineToArgs
  rw [stripChars_wrap a h]
  exact pySplit_single a h.1 (fun c hc => (h.2 c hc).1)

theorem stripChars_extra_line (args : List String)
    (h : ∀ a ∈ args, cleanToken a) :
    stripChars ("  " ++ pyJoin " \\\n  " args) spaceSlash = pyJoin " \\\n  " args := by
  have hJ : (pyJoin " \\\n  " args).data = joinData (args.map String.data) :=
    pyJoin_data _ args rfl
  have hclean : ∀ a ∈ args.map String.data, a ≠ [] := by
    intro a hma
    obtain ⟨s, hs, hsa⟩ := List.mem_map.mp hma
    exact hsa ▸ (h s hs).1
  have hheadmem := joinData_head?_mem (args.map String.data) hclean
  have hlastmem := joinData_getLast?_mem (args.map String.data) hclean
  have hget : ∀ c, ∀ a ∈ args.map String.data, c ∈ a → spaceSlash.contains c = false := by
    intro c a hma hca
    obtain ⟨s, hs, hsa⟩ := List.mem_map.mp hma
    have := (h s hs).2 c (hsa ▸ hca)
    exact spaceSlash_contains_false c this.1 this.2
  have hdata : ("  " ++ pyJoin " \\\n  " args).data =
      ' ' :: ' ' :: (pyJoin " \\\n  " args).data := by
    rw [data_append]
    rfl
  unfold stripChars
  rw [hdata]
  rw [List.dropWhile_cons, if_pos (by rfl)]
  rw [List.dropWhile_cons, if_pos (by rfl)]
  have hhead : ∀ c, (pyJoin " \\\n  " args).data.head? = some c →
      spaceSlash.contains c = false := by
    intro c hcc
    rw [hJ] at hcc
    obtain ⟨a, hma, hca⟩ := hheadmem c hcc
    exact hget c a hma hca
  have hlast : ∀ c, (pyJoin " \\\n  " args).data.reverse.head? = some c →
      spaceSlash.contains c = false := by
    intro c hcc
    rw [List.head?_reverse, hJ] at hcc
    obtain ⟨a, hma, hca⟩ := hlastmem c hcc
    exact hget c a hma hca
  rw [dropWhile_of_head _ _ hhead, dropWhile_of_head _ _ hlast, List.reverse_reverse]

theorem lineToArgs_extra (args : List String)
    (h : ∀ a ∈ args, cleanToken a) :
    lineToArgs ("  " ++ pyJoin " \\\n  " args) = List.intersperse "\\" args := by
  unfold lineToArgs
  rw [stripChars_extra_line args h]
  unfold pySplit
  rw [pyJoin_data _ args rfl]
  rw [split_joinData (args.map String.data) ?hc]
  case hc =>
    intro a hma
    obtain ⟨s, hs, hsa⟩ := List.mem_map.mp hma
    exact ⟨hsa ▸ (h s hs).1, fun c hca => ((h s hs).2 c (hsa ▸ hca)).1⟩
  rw [map_intersperse]
  have hmk : List.map (fun x : List Char => (⟨x⟩ : String)) (args.map String.data) = args := by
    rw [List.map_map]
    have : (fun x : String => (⟨x.data⟩ : String)) = id := funext fun s => rfl
    simp only [Function.comp_def]
    rw [this, List.map_id]
  rw [hmk]

/-! ### Helper lemmas about the mapper, runner and relocator -/

theorem commentLines_ok (o : Options)
    (h : ∀ c, o.comment = some c → c.length ≤ maxCommentLength) :
    ∃ cls, commentLines o = .ok cls := by
  cases hc : o.comment with
  | none => exact ⟨[], by simp [commentLines, hc]⟩
  | some c =>
      have hle := h c hc
      exact ⟨["  -c \"" ++ c ++ "\" \\"],
        by simp [commentLines, hc, Nat.not_lt.mpr hle]⟩

theorem buildCommandLines_ok_of (t : String) (o : Options) (cls : List String)
    (h : commentLines o = .ok cls) :
    buildCommandLines t o =
      .ok (baseLines o ++ compressLines o ++ cls ++ outFolderLines t o
            ++ ["  " ++ o.inFolder ++ " \\"] ++ extraArgsLines o) := by
  simp [buildCommandLines, h]

theorem buildCommandLines_ok_inv (t : String) (o : Options) (ls : List String)
    (h : buildCommandLines t o = .ok ls) :
    ∃ cls, commentLines o = .ok cls ∧
      ls = baseLines o ++ compressLines o ++ cls ++ outFolderLines t o
            ++ ["  " ++ o.inFolder ++ " \\"] ++ extraArgsLines o := by
  cases hc : commentLines o with
  | error e => rw [buildCommandLines, hc] at h; exact Except.noConfusion h
  | ok cls =>
      rw [buildCommandLines, hc] at h
      exact ⟨cls, rfl, (Except.ok.injEq _ _ ▸ h).symm⟩

theorem call_dcm2niix_effects (bin : String) (lines : List String)
    (proc : CompletedProcess) :
    (call_dcm2niix bin lines proc).1 =
      [Effect.spawn (bin :: (lines.map lineToArgs).flatten)] := rfl

theorem successEvents_append (a b : List LogEvent) :
    successEvents (a ++ b) = successEvents a ++ successEvents b := by
  simp [successEvents, List.filter_append]

theorem successEvents_call (bin : String) (lines : List String)
    (proc : CompletedProcess) :
    successEvents (call_dcm2niix bin lines proc).2 =
      successEvents ((splitlines proc.stdout).map classifyLine) := by
  have hds : (Severity.debug == Severity.success) = false := rfl
  have hes : (Severity.error == Severity.success) = false := rfl
  unfold call_dcm2niix successEvents
  by_cases hr : proc.returncode = 0 <;>
    simp [hr, List.filter_append, hds, hes]

theorem relocate_single (entries : List String) (outPath outFolder x : String)
    (h : entries.filter (fun q => pathSuffix q != ".json") = [x]) :
    relocate entries outPath outFolder =
      ([.move x outPath, .rmtree outFolder], [], .ok) := by
  simp [relocate, h]

theorem relocate_many (entries : List String) (outPath outFolder : String)
    (h : (entries.filter (fun q => pathSuffix q != ".json")).length > 1) :
    relocate entries outPath outFolder =
      ([], [{ sev := .warning, msg := moreThanOneMsg outFolder }], .ok) := by
  simp [relocate, h]

theorem relocate_empty (entries : List String) (outPath outFolder : String)
    (h : entries.filter (fun q => pathSuffix q != ".json") = []) :
    relocate entries outPath outFolder = ([], [], .error .indexError) := by
  simp [relocate, h]

theorem dcm2niix_help (env : Env) (o : Options)
    (hh : "-h" ∈ o.args) :
    dcm2niix env o =
      ({ effects := (call_dcm2niix env.binPath ["-h"] env.proc).1,
         logs := (call_dcm2niix env.binPath ["-h"] env.proc).2 }, .ok) := by
  simp [dcm2niix, hh]

theorem dcm2niix_error (env : Env) (o : Options) (e : Err)
    (hh : "-h" ∉ o.args)
    (hb : buildCommandLines env.tmpdir o = .error e) :
    dcm2niix env o =
      ({ effects := (match o.outPath with
          | some p => [Effect.mkdirParents (parentOf p), Effect.mkdtemp env.tmpdir]
          | none => []),
         logs := [] }, .error e) := by
  simp [dcm2niix, hh, hb]

theorem dcm2niix_ok_none (env : Env) (o : Options) (ls : List String)
    (hh : "-h" ∉ o.args)
    (hb : buildCommandLines env.tmpdir o = .ok ls)
    (hp : o.outPath = none) :
    dcm2niix env o =
      ({ effects := (match o.outFolder with
            | some f => [Effect.mkdirParents f]
            | none => []) ++ (call_dcm2niix env.binPath ls env.proc).1,
         logs := (call_dcm2niix env.binPath ls env.proc).2 }, .ok) := by
  simp [dcm2niix, hh, hb, hp, effectiveOutFolder]

theorem dcm2niix_ok_some (env : Env) (o : Options) (ls : List String) (p : String)
    (hh : "-h" ∉ o.args)
    (hb : buildCommandLines env.tmpdir o = .ok ls)
    (hp : o.outPath = some p) :
    dcm2niix env o =
      ({ effects := Effect.mkdirParents (parentOf p) :: Effect.mkdtemp env.tmpdir ::
            Effect.mkdirParents env.tmpdir ::
            ((call_dcm2niix env.binPath ls env.proc).1
              ++ (relocate env.tmpEntries p env.tmpdir).1),
         logs := (call_dcm2niix env.binPath ls env.proc).2
            ++ (relocate env.tmpEntries p env.tmpdir).2.1 },
       (relocate env.tmpEntries p env.tmpdir).2.2) := by
  simp [dcm2niix, hh, hb, hp, effectiveOutFolder]

/-! ### The claims -/

/-- C8: every export-format enumeration value maps through the fixed table
NRRD→"y", MGH→"m", JSON/JNIfTI→"j", BJNIfTI→"b", NIfTI→"n"; the mapping is
total over the closed enumeration, and the mapped code is emitted with the
`-e` flag on every successfully built command. -/
theorem c8_export_format_table :
    (∀ f : Format, format_to_string f ∈ (["y", "m", "j", "b", "n"] : List String)) ∧
    format_to_string .nrrd = "y" ∧ format_to_string .mgh = "m" ∧
    format_to_string .json_nifti = "j" ∧ format_to_string .bjnifti = "b" ∧
    format_to_string .nifti = "n" ∧
    ∀ (t : String) (o : Options) (ls : List String),
      buildCommandLines t o = .ok ls →
      ("  -e " ++ format_to_string o.exportFormat ++ " \\") ∈ ls := by
  refine ⟨?_, rfl, rfl, rfl, rfl, rfl, ?_⟩
  · intro f
    cases f <;> simp [format_to_string]
  · intro t o ls h
    obtain ⟨cls, hcls, hls⟩ := buildCommandLines_ok_inv t o ls h
    subst hls
    simp [baseLines, List.mem_append]

/-- Witness for C8 at a concrete invocation with all defaults. -/
theorem c8_export_format_table_witness :
    buildCommandLines "/tmp/dcm" { inFolder := "/data" } = .ok
      ["  -a n \\", "  -d 5 \\", "  -e n \\", "  -f %f_%p_%t_%s \\", "  -i n \\",
       "  -v 0 \\", "  -z y \\", "  -w 1 \\", "  -6 \\", "  /data \\"] ∧
    ("  -e n \\") ∈
      ["  -a n \\", "  -d 5 \\", "  -e n \\", "  -f %f_%p_%t_%s \\", "  -i n \\",
       "  -v 0 \\", "  -z y \\", "  -w 1 \\", "  -6 \\", "  /data \\"] :=
  ⟨rfl, c8_export_format_table.2.2.2.2.2.2 "/tmp/dcm" { inFolder := "/data" }
    _ rfl⟩

/-- C4: when the literal "-h" flag appears among the extra pass-through
arguments, the wrapped binary is invoked with only that flag, no other flags
are emitted, no directory is created, and no relocation logic runs (the trace
is a single spawn effect). -/
theorem c4_help_flag_short_circuit (env : Env) (o : Options) (h : "-h" ∈ o.args) :
    (dcm2niix env o).1.effects = [Effect.spawn [env.binPath, "-h"]] ∧
    (dcm2niix env o).2 = .ok := by
  rw [dcm2niix_help env o h]
  refine ⟨?_, rfl⟩
  show (call_dcm2niix env.binPath ["-h"] env.proc).1 = _
  rw [call_dcm2niix_effects]
  have honly : (List.map lineToArgs ["-h"]).flatten = ["-h"] := by decide
  rw [honly]

/-- Witness for C4 at a concrete invocation. -/
theorem c4_help_flag_short_circuit_witness :
    ("-h" ∈ (["-h"] : List String)) ∧
    ((dcm2niix ⟨"dcm2niix", "/tmp/dcm", ⟨0, "", ""⟩, []⟩
        { inFolder := "/data", args := ["-h"] }).1.effects
        = [Effect.spawn ["dcm2niix", "-h"]] ∧
      (dcm2niix ⟨"dcm2niix", "/tmp/dcm", ⟨0, "", ""⟩, []⟩
        { inFolder := "/data", args := ["-h"] }).2 = .ok) :=
  ⟨by decide, c4_help_flag_short_circuit _ _ (by decide)⟩

/-- C5 is a code bug: the runner strips the characters of the set
`{W,a,r,n,i,g,:,space}` from both ends of a warning line (Python
`line.strip("Warning: ")`), not the leading "Warning: " marker only. On the
stdout line "Warning: no data" the code re-emits "o dat" while removing
exactly the leading marker would give "no data". -/
theorem c5_warning_strip_code_bug :
    classifyLine "Warning: no data" = { sev := Severity.warning, msg := "o dat" } ∧
    (⟨("Warning: no data").data.drop 9⟩ : String) = "no data" ∧
    ("o dat" : String) ≠ "no data" := by
  refine ⟨?_, ?_, ?_⟩ <;> decide

/-- C1: with a comment supplied and no help short-circuit, a comment of
length at most 24 maps successfully and its flag line carries the comment
verbatim; a longer comment makes the call raise the length `ValueError`
before any subprocess is spawned (no spawn effect in the trace). -/
theorem c1_comment_length_validation (env : Env) (o : Options) (c : String)
    (hc : o.comment = some c) (hh : "-h" ∉ o.args) :
    (c.length ≤ maxCommentLength →
      ∃ ls, buildCommandLines env.tmpdir o = .ok ls ∧
        ("  -c \"" ++ c ++ "\" \\") ∈ ls) ∧
    (c.length > maxCommentLength →
      (∃ m, (dcm2niix env o).2 = .error (.validationError m)) ∧
      ∀ e ∈ (dcm2niix env o).1.effects, e.isSpawn = false) := by
  constructor
  · intro hle
    have hcl : commentLines o = .ok ["  -c \"" ++ c ++ "\" \\"] := by
      simp [commentLines, hc, Nat.not_lt.mpr hle]
    refine ⟨_, buildCommandLines_ok_of _ o _ hcl, ?_⟩
    simp [List.mem_append]
  · intro hgt
    have hcl : commentLines o = .error (.validationError
        ("Comment length (" ++ toString c.length ++ ") exceeds maximum of "
          ++ toString maxCommentLength ++ " characters")) := by
      simp [commentLines, hc, hgt]
    have hbuild : buildCommandLines env.tmpdir o = .error (.validationError
        ("Comment length (" ++ toString c.length ++ ") exceeds maximum of "
          ++ toString maxCommentLength ++ " characters")) := by
      simp [buildCommandLines, hcl]
    rw [dcm2niix_error env o _ hh hbuild]
    refine ⟨⟨_, rfl⟩, ?_⟩
    intro e he
    cases hop : o.outPath with
    | none => rw [hop] at he; simp at he
    | some q =>
        rw [hop] at he
        simp only [List.mem_cons, List.mem_singleton] at he
        rcases he with h1 | h2 | h3
        · rw [h1]; rfl
        · rw [h2]; rfl
        · simp at h3

/-- Witness for C1: a 3-character comment is accepted and emitted verbatim
(the oversized branch is vacuous at this input). -/
theorem c1_comment_length_validation_witness :
    (optShortComment.comment = some "VIP" ∧ "-h" ∉ optShortComment.args) ∧
    (("VIP" : String).length ≤ maxCommentLength →
      ∃ ls, buildCommandLines sampleEnv.tmpdir optShortComment = .ok ls ∧
        ("  -c \"" ++ "VIP" ++ "\" \\") ∈ ls) ∧
    (("VIP" : String).length > maxCommentLength →
      (∃ m, (dcm2niix sampleEnv optShortComment).2 = .error (.validationError m)) ∧
      ∀ e ∈ (dcm2niix sampleEnv optShortComment).1.effects, e.isSpawn = false) :=
  ⟨⟨rfl, by decide⟩,
    c1_comment_length_validation sampleEnv optShortComment "VIP" rfl (by decide)⟩

/-- C2: when an explicit single-file output path is requested, the emitted
depth is 0 regardless of the caller-supplied depth, and the working output
folder passed via `-o` is the fresh `mkdtemp` directory, never the
caller-supplied output folder. -/
theorem c2_out_path_depth_and_tmpdir (env : Env) (o : Options) (p : String)
    (hp : o.outPath = some p)
    (hfresh : ∀ f, o.outFolder = some f → f ≠ env.tmpdir) :
    effectiveDepth o = 0 ∧
    effectiveOutFolder env.tmpdir o = some env.tmpdir ∧
    effectiveOutFolder env.tmpdir o ≠ o.outFolder ∧
    ∀ ls, buildCommandLines env.tmpdir o = .ok ls →
      ("  -d 0 \\") ∈ ls ∧ ("  -o " ++ env.tmpdir ++ " \\") ∈ ls := by
  have hd : effectiveDepth o = 0 := by simp [effectiveDepth, hp]
  have hf : effectiveOutFolder env.tmpdir o = some env.tmpdir := by
    simp [effectiveOutFolder, hp]
  refine ⟨hd, hf, ?_, ?_⟩
  · rw [hf]
    cases hof : o.outFolder with
    | none => simp
    | some f => simpa using fun heq => hfresh f hof heq.symm
  · intro ls h
    obtain ⟨cls, hcls, hls⟩ := buildCommandLines_ok_inv env.tmpdir o ls h
    subst hls
    have h0 : ("  -d " ++ toString (0 : Nat) ++ " \\") = "  -d 0 \\" := rfl
    have hofl : outFolderLines env.tmpdir o = ["  -o " ++ env.tmpdir ++ " \\"] := by
      simp [outFolderLines, hf]
    constructor
    · simp [baseLines, hd, h0, List.mem_append]
    · simp [hofl, List.mem_append]

/-- Witness for C2 at a concrete invocation with caller depth 7 and a
caller output folder distinct from the temp directory. -/
theorem c2_out_path_depth_and_tmpdir_witness :
    (optOutPath.outPath = some "/out/res.nii.gz" ∧
      (∀ f, optOutPath.outFolder = some f → f ≠ sampleEnv.tmpdir)) ∧
    (effectiveDepth optOutPath = 0 ∧
      effectiveOutFolder sampleEnv.tmpdir optOutPath = some sampleEnv.tmpdir ∧
      effectiveOutFolder sampleEnv.tmpdir optOutPath ≠ optOutPath.outFolder ∧
      ∀ ls, buildCommandLines sampleEnv.tmpdir optOutPath = .ok ls →
        ("  -d 0 \\") ∈ ls ∧ ("  -o " ++ sampleEnv.tmpdir ++ " \\") ∈ ls) :=
  ⟨⟨rfl, by decide⟩,
    c2_out_path_depth_and_tmpdir sampleEnv optOutPath "/out/res.nii.gz" rfl (by decide)⟩

/-- C10: with an explicit output path and an oversized comment, the failure
is not atomic: the destination's parent is created and the temp directory is
made before the `ValueError` is raised, and the error path removes neither
(and spawns nothing). -/
theorem c10_failure_not_atomic (env : Env) (o : Options) (p c : String)
    (hp : o.outPath = some p) (hc : o.comment = some c)
    (hlen : c.length > maxCommentLength) (hh : "-h" ∉ o.args) :
    (dcm2niix env o).1.effects =
      [Effect.mkdirParents (parentOf p), Effect.mkdtemp env.tmpdir] ∧
    (∃ m, (dcm2niix env o).2 = .error (.validationError m)) ∧
    ∀ e ∈ (dcm2niix env o).1.effects, e.isRmtree = false ∧ e.isSpawn = false := by
  have hcl : commentLines o = .error (.validationError
      ("Comment length (" ++ toString c.length ++ ") exceeds maximum of "
        ++ toString maxCommentLength ++ " characters")) := by
    simp [commentLines, hc, hlen]
  have hbuild : buildCommandLines env.tmpdir o = .error (.validationError
      ("Comment length (" ++ toString c.length ++ ") exceeds maximum of "
        ++ toString maxCommentLength ++ " characters")) := by
    simp [buildCommandLines, hcl]
  rw [dcm2niix_error env o _ hh hbuild]
  refine ⟨by rw [hp], ⟨_, rfl⟩, ?_⟩
  intro e he
  rw [hp] at he
  simp only [List.mem_cons, List.mem_singleton] at he
  rcases he with h1 | h2 | h3
  · rw [h1]; exact ⟨rfl, rfl⟩
  · rw [h2]; exact ⟨rfl, rfl⟩
  · simp at h3

/-- Witness for C10 at a concrete invocation with a 31-character comment. -/
theorem c10_failure_not_atomic_witness :
    ((dcm2niix sampleEnv optOutPathLongComment).1.effects =
      [Effect.mkdirParents (parentOf "/out/res.nii.gz"), Effect.mkdtemp sampleEnv.tmpdir] ∧
    (∃ m, (dcm2niix sampleEnv optOutPathLongComment).2 =
        .error (.validationError m)) ∧
    ∀ e ∈ (dcm2niix sampleEnv optOutPathLongComment).1.effects,
      e.isRmtree = false ∧ e.isSpawn = false) :=
  c10_failure_not_atomic sampleEnv optOutPathLongComment
    "/out/res.nii.gz" "this comment is far too long xx" rfl rfl (by decide) (by decide)

/-- C3: with a requested single output file, after the run: exactly one
non-JSON candidate in the temp folder is moved to the destination and the
temp directory is then removed; with more than one candidate nothing is moved
or removed, the warning naming the temp directory is logged, and the call
still returns normally. -/
theorem c3_single_output_relocation (env : Env) (o : Options) (p : String)
    (hp : o.outPath = some p) (hh : "-h" ∉ o.args)
    (hcm : ∀ c, o.comment = some c → c.length ≤ maxCommentLength) :
    (∀ x, env.tmpEntries.filter (fun q => pathSuffix q != ".json") = [x] →
      (∃ pre, (dcm2niix env o).1.effects =
        pre ++ [Effect.move x p, Effect.rmtree env.tmpdir]) ∧
      (dcm2niix env o).2 = .ok) ∧
    ((env.tmpEntries.filter (fun q => pathSuffix q != ".json")).length > 1 →
      ({ sev := Severity.warning, msg := moreThanOneMsg env.tmpdir } : LogEvent)
          ∈ (dcm2niix env o).1.logs ∧
      (∀ e ∈ (dcm2niix env o).1.effects, e.isMove = false ∧ e.isRmtree = false) ∧
      (dcm2niix env o).2 = .ok) := by
  obtain ⟨cls, hcls⟩ := commentLines_ok o hcm
  have hb := buildCommandLines_ok_of env.tmpdir o cls hcls
  constructor
  · intro x hx
    have hrel := relocate_single env.tmpEntries p env.tmpdir x hx
    rw [dcm2niix_ok_some env o _ p hh hb hp, hrel]
    constructor
    · refine ⟨Effect.mkdirParents (parentOf p) :: Effect.mkdtemp env.tmpdir ::
        Effect.mkdirParents env.tmpdir ::
          (call_dcm2niix env.binPath
            (baseLines o ++ compressLines o ++ cls ++ outFolderLines env.tmpdir o
              ++ ["  " ++ o.inFolder ++ " \\"] ++ extraArgsLines o) env.proc).1, ?_⟩
      simp
    · rfl
  · intro hlen
    have hrel := relocate_many env.tmpEntries p env.tmpdir hlen
    rw [dcm2niix_ok_some env o _ p hh hb hp, hrel]
    refine ⟨by simp, ?_, rfl⟩
    intro e he
    rw [call_dcm2niix_effects] at he
    simp at he
    rcases he with h | h | h | h
    · rw [h]; exact ⟨rfl, rfl⟩
    · rw [h]; exact ⟨rfl, rfl⟩
    · rw [h]; exact ⟨rfl, rfl⟩
    · rw [h]; exact ⟨rfl, rfl⟩

/-- Witness for C3 in the single-candidate configuration (one image plus one
JSON sidecar in the temp folder). -/
theorem c3_single_output_relocation_witness :
    (optOutPathPlain.outPath = some "/out/res.nii.gz" ∧
      "-h" ∉ optOutPathPlain.args ∧
      envOneCandidate.tmpEntries.filter (fun q => pathSuffix q != ".json")
        = ["/tmp/dcm/a.nii.gz"]) ∧
    ((∀ x, envOneCandidate.tmpEntries.filter (fun q => pathSuffix q != ".json") = [x] →
      (∃ pre, (dcm2niix envOneCandidate optOutPathPlain).1.effects =
        pre ++ [Effect.move x "/out/res.nii.gz", Effect.rmtree envOneCandidate.tmpdir]) ∧
      (dcm2niix envOneCandidate optOutPathPlain).2 = .ok) ∧
    ((envOneCandidate.tmpEntries.filter (fun q => pathSuffix q != ".json")).length > 1 →
      ({ sev := Severity.warning, msg := moreThanOneMsg envOneCandidate.tmpdir } : LogEvent)
          ∈ (dcm2niix envOneCandidate optOutPathPlain).1.logs ∧
      (∀ e ∈ (dcm2niix envOneCandidate optOutPathPlain).1.effects,
        e.isMove = false ∧ e.isRmtree = false) ∧
      (dcm2niix envOneCandidate optOutPathPlain).2 = .ok)) :=
  ⟨⟨rfl, by decide, by decide⟩,
    c3_single_output_relocation envOneCandidate optOutPathPlain "/out/res.nii.gz"
      rfl (by decide) (fun _ h => Option.noConfusion h)⟩

/-- C9: with a requested single output file and zero non-JSON candidates
left in the temp folder, the relocation step raises the unhandled
`IndexError` from indexing an empty list: the call is neither a silent no-op
nor a reported `ValueError`, nothing is moved, and the temp directory is not
removed. -/
theorem c9_zero_candidates_index_error (env : Env) (o : Options) (p : String)
    (hp : o.outPath = some p) (hh : "-h" ∉ o.args)
    (hcm : ∀ c, o.comment = some c → c.length ≤ maxCommentLength)
    (hzero : env.tmpEntries.filter (fun q => pathSuffix q != ".json") = []) :
    (dcm2niix env o).2 = .error .indexError ∧
    ∀ e ∈ (dcm2niix env o).1.effects, e.isMove = false ∧ e.isRmtree = false := by
  obtain ⟨cls, hcls⟩ := commentLines_ok o hcm
  have hb := buildCommandLines_ok_of env.tmpdir o cls hcls
  have hrel := relocate_empty env.tmpEntries p env.tmpdir hzero
  rw [dcm2niix_ok_some env o _ p hh hb hp, hrel]
  refine ⟨rfl, ?_⟩
  intro e he
  rw [call_dcm2niix_effects] at he
  simp at he
  rcases he with h | h | h | h
  · rw [h]; exact ⟨rfl, rfl⟩
  · rw [h]; exact ⟨rfl, rfl⟩
  · rw [h]; exact ⟨rfl, rfl⟩
  · rw [h]; exact ⟨rfl, rfl⟩

/-- Witness for C9: only a JSON sidecar remains in the temp folder. -/
theorem c9_zero_candidates_index_error_witness :
    (optOutPathPlain.outPath = some "/out/res.nii.gz" ∧
      "-h" ∉ optOutPathPlain.args ∧
      envNoCandidate.tmpEntries.filter (fun q => pathSuffix q != ".json") = []) ∧
    ((dcm2niix envNoCandidate optOutPathPlain).2 = .error .indexError ∧
      ∀ e ∈ (dcm2niix envNoCandidate optOutPathPlain).1.effects,
        e.isMove = false ∧ e.isRmtree = false) :=
  ⟨⟨rfl, by decide, by decide⟩,
    c9_zero_candidates_index_error envNoCandidate optOutPathPlain "/out/res.nii.gz"
      rfl (by decide) (fun _ h => Option.noConfusion h) (by decide)⟩

theorem successEvents_relocate (entries : List String) (outPath outFolder : String) :
    successEvents (relocate entries outPath outFolder).2.1 = [] := by
  by_cases hl : (entries.filter (fun q => pathSuffix q != ".json")).length > 1
  · rw [relocate_many _ _ _ hl]
    rfl
  · cases hf : entries.filter (fun q => pathSuffix q != ".json") with
    | nil => rw [relocate_empty _ _ _ hf]; rfl
    | cons x rest =>
        cases rest with
        | nil => rw [relocate_single _ _ _ x hf]; rfl
        | cons y t =>
            exfalso
            apply hl
            rw [hf]
            simp

/-- C6 counterexample: a run that completes without a fatal error (exit code
0, empty stdout, no output-file request) logs zero success-severity events,
so no final success marker is logged exactly once. -/
theorem c6_final_success_marker_counterexample :
    (dcm2niix sampleEnv optPlain).2 = .ok ∧
    successEvents (dcm2niix sampleEnv optPlain).1.logs = [] := by
  exact ⟨rfl, rfl⟩

/-- C6 amended: the code logs no final success marker at all; the
success-severity events of a run that passes comment validation are exactly
the re-emissions of the captured stdout lines that classify as success
(lines starting with "Conversion required"), and nothing success-severity is
logged after the relocation step. -/
theorem c6_success_only_from_stdout (env : Env) (o : Options)
    (hcm : ∀ c, o.comment = some c → c.length ≤ maxCommentLength) :
    successEvents (dcm2niix env o).1.logs =
      successEvents ((splitlines env.proc.stdout).map classifyLine) := by
  by_cases hh : "-h" ∈ o.args
  · rw [dcm2niix_help env o hh]
    exact successEvents_call _ _ _
  · obtain ⟨cls, hcls⟩ := commentLines_ok o hcm
    have hb := buildCommandLines_ok_of env.tmpdir o cls hcls
    cases hp : o.outPath with
    | none =>
        rw [dcm2niix_ok_none env o _ hh hb hp]
        exact successEvents_call _ _ _
    | some p =>
        rw [dcm2niix_ok_some env o _ p hh hb hp]
        show successEvents (_ ++ _) = _
        rw [successEvents_append, successEvents_call, successEvents_relocate]
        simp

/-- Witness for C6 amended: a run whose stdout has one success line and one
plain line. -/
theorem c6_success_only_from_stdout_witness :
    (∀ c, optPlain.comment = some c → c.length ≤ maxCommentLength) ∧
    successEvents (dcm2niix envQuiet optPlain).1.logs =
      successEvents ((splitlines envQuiet.proc.stdout).map classifyLine) :=
  ⟨fun _ h => Option.noConfusion h,
    c6_success_only_from_stdout envQuiet optPlain (fun _ h => Option.noConfusion h)⟩

/-- C7 counterexample: an extra pass-through argument containing a space
("a b") does not appear verbatim in the argument list handed to the binary:
the runner whitespace-splits it into "a" and "b". -/
theorem c7_extra_args_counterexample :
    (dcm2niix sampleEnv optArgSpace).1.effects =
      [Effect.spawn ["dcm2niix", "-a", "n", "-d", "5", "-e", "n", "-f", "%f_%p_%t_%s",
        "-i", "n", "-v", "0", "-z", "y", "-w", "1", "-6", "/data", "a", "b"]] ∧
    ∀ l, Effect.spawn l ∈ (dcm2niix sampleEnv optArgSpace).1.effects → "a b" ∉ l := by
  have h1 : (dcm2niix sampleEnv optArgSpace).1.effects =
      [Effect.spawn ["dcm2niix", "-a", "n", "-d", "5", "-e", "n", "-f", "%f_%p_%t_%s",
        "-i", "n", "-v", "0", "-z", "y", "-w", "1", "-6", "/data", "a", "b"]] := rfl
  refine ⟨h1, ?_⟩
  intro l hl
  rw [h1] at hl
  simp at hl
  rw [hl]
  decide

/-- C7 amended: extra arguments that are clean tokens (nonempty, no
whitespace, no backslash) appear verbatim in the received order in the
argument list handed to the binary, after all structured flags and after the
positional input directory; the runner inserts a literal backslash token
between consecutive extras. -/
theorem c7_extra_args_passthrough_amended (env : Env) (o : Options)
    (hne : o.args ≠ []) (hh : "-h" ∉ o.args)
    (hargs : ∀ a ∈ o.args, cleanToken a)
    (hin : cleanToken o.inFolder)
    (hcm : ∀ c, o.comment = some c → c.length ≤ maxCommentLength) :
    ∃ cls, commentLines o = .ok cls ∧
      Effect.spawn (env.binPath ::
        (((baseLines o ++ compressLines o ++ cls ++ outFolderLines env.tmpdir o).map
            lineToArgs).flatten
          ++ [o.inFolder] ++ List.intersperse "\\" o.args))
        ∈ (dcm2niix env o).1.effects := by
  obtain ⟨cls, hcls⟩ := commentLines_ok o hcm
  refine ⟨cls, hcls, ?_⟩
  have hb := buildCommandLines_ok_of env.tmpdir o cls hcls
  have hext : extraArgsLines o = ["  " ++ pyJoin " \\\n  " o.args] := by
    simp [extraArgsLines, hne]
  have htokens : ((baseLines o ++ compressLines o ++ cls ++ outFolderLines env.tmpdir o
      ++ ["  " ++ o.inFolder ++ " \\"] ++ extraArgsLines o).map lineToArgs).flatten
      = ((baseLines o ++ compressLines o ++ cls ++ outFolderLines env.tmpdir o).map
          lineToArgs).flatten ++ [o.inFolder] ++ List.intersperse "\\" o.args := by
    rw [hext]
    rw [List.map_append, List.map_append, List.flatten_append, List.flatten_append]
    rw [show List.map lineToArgs ["  " ++ o.inFolder ++ " \\"]
        = [lineToArgs ("  " ++ o.inFolder ++ " \\")] from rfl]
    rw [show List.map lineToArgs ["  " ++ pyJoin " \\\n  " o.args]
        = [lineToArgs ("  " ++ pyJoin " \\\n  " o.args)] from rfl]
    rw [lineToArgs_clean o.inFolder hin, lineToArgs_extra o.args hargs]
    simp
  cases hp : o.outPath with
  | none =>
      rw [dcm2niix_ok_none env o _ hh hb hp, call_dcm2niix_effects, htokens]
      simp
  | some p =>
      rw [dcm2niix_ok_some env o _ p hh hb hp, call_dcm2niix_effects, htokens]
      simp

/-- Witness for C7 amended: two clean extra arguments. -/
theorem c7_extra_args_passthrough_amended_witness :
    (optExtras.args ≠ [] ∧ "-h" ∉ optExtras.args ∧
      (∀ a ∈ optExtras.args, cleanToken a) ∧ cleanToken optExtras.inFolder) ∧
    (∃ cls, commentLines optExtras = .ok cls ∧
      Effect.spawn (sampleEnv.binPath ::
        (((baseLines optExtras ++ compressLines optExtras ++ cls
            ++ outFolderLines sampleEnv.tmpdir optExtras).map lineToArgs).flatten
          ++ [optExtras.inFolder] ++ List.intersperse "\\" optExtras.args))
        ∈ (dcm2niix sampleEnv optExtras).1.effects) :=
  ⟨⟨by decide, by decide, by decide, by decide⟩,
    c7_extra_args_passthrough_amended sampleEnv optExtras (by decide) (by decide)
      (by decide) (by decide) (fun _ h => Option.noConfusion h)⟩

end Dcm2niixPyw
